import Mathlib

/-!
A shallow embedding of `src/streamer.py` (class `YouTubeStreamer`), the single
source file of this repository, together with theorems settling the behavioural
claims about it.

Python strings are modelled as `List Char`; Python `int` as `Int`;
absent values (`None`) and raised exceptions as `Option`.  Effectful steps
(HTTP requests, the filesystem, spawned processes) are modelled by explicit
environment records whose fields give the outcome of each effect, so that the
pure control flow of the source is preserved exactly.
-/

namespace Streamer

/-! ## Constants from the source -/

/-- `self.retry_delay = 5` (`streamer.py`, `__init__`). -/
def retry_delay : Nat := 5

/-- The `999` ceiling of the restart loop in `start_streaming`. -/
def max_attempts : Nat := 999

/-- The `10000`-byte minimum plausible file size used by all three size checks. -/
def min_file_size : Nat := 10000

/-! ## URL classifier -/

/-- The character class `[a-zA-Z0-9_-]` of the identifier regexes in
`extract_gdrive_id`. -/
def isIdChar (c : Char) : Bool :=
  c.isAlpha || c.isDigit || c == '_' || c == '-'

/-- Python `needle in s` on strings: substring containment. -/
def containsSub (needle : List Char) : List Char → Bool
  | [] => needle.isEmpty
  | c :: rest => needle.isPrefixOf (c :: rest) || containsSub needle rest

/-- `is_google_drive_url` (`streamer.py` line 33): substring test of the whole
URL against the two domain strings. -/
def is_google_drive_url (url : List Char) : Bool :=
  containsSub "drive.google.com".data url || containsSub "docs.google.com".data url

/-- `re.search` for a regex of the shape `lit(<good>+)`: find the leftmost
position where the literal `lit` matches and is followed by at least one
character satisfying `good`; the capture group is the maximal (greedy) run of
`good` characters after the literal.  All five regexes of the source
(`/file/d/([a-zA-Z0-9_-]+)` etc. and `confirm=([^&"]+)`) have this shape. -/
def searchTok (lit : List Char) (good : Char → Bool) : List Char → Option (List Char)
  | [] => none
  | c :: rest =>
    if lit.isPrefixOf (c :: rest) then
      let run := ((c :: rest).drop lit.length).takeWhile good
      if run.isEmpty then searchTok lit good rest else some run
    else searchTok lit good rest

/-- The literal parts of the four identifier patterns of `extract_gdrive_id`,
in source order. -/
def gdrivePatterns : List (List Char) :=
  ["/file/d/".data, "id=".data, "/open?id=".data, "/d/".data]

/-- `extract_gdrive_id` (`streamer.py` line 37): try the four patterns in
order, return the first capture found, else `None`. -/
def extract_gdrive_id (url : List Char) : Option (List Char) :=
  match searchTok "/file/d/".data isIdChar url with
  | some r => some r
  | none =>
    match searchTok "id=".data isIdChar url with
    | some r => some r
    | none =>
      match searchTok "/open?id=".data isIdChar url with
      | some r => some r
      | none => searchTok "/d/".data isIdChar url

/-! ## Acquisition engine -/

/-- The observable pieces of a `requests` response used by the source:
cookies (as ordered key/value pairs), the decoded body text, and the
`content-type` header (already defaulted to `""` as in line 92). -/
structure HttpResp where
  cookies : List (List Char × List Char)
  body : List Char
  contentType : List Char

/-- The cookie scan of `download_from_gdrive` (lines 69-72): the value of the
first cookie whose key starts with `download_warning`, if any. -/
def cookieToken : List (List Char × List Char) → Option (List Char)
  | [] => none
  | (k, v) :: rest =>
    if "download_warning".data.isPrefixOf k then some v else cookieToken rest

/-- The HTML fallback scan (lines 75-80): `re.search(r'confirm=([^&"]+)', content)`. -/
def bodyToken (body : List Char) : Option (List Char) :=
  searchTok "confirm=".data (fun c => !(c == '&' || c == '"')) body

/-- Python truthiness of the `token` variable: `None` and the empty string are
falsy. -/
def truthyTok : Option (List Char) → Bool
  | none => false
  | some v => !v.isEmpty

/-- The value bound to the `confirm` parameter of the second request
(lines 68-86): the cookie token if truthy, else the body token if found, else
the leftover falsy token is replaced by the generic `'t'`. -/
def confirm_param (cookies : List (List Char × List Char)) (body : List Char) :
    List Char :=
  let t0 := cookieToken cookies
  let t1 := if truthyTok t0 then t0 else
    match bodyToken body with
    | some b => some b
    | none => t0
  if truthyTok t1 then t1.getD ['t'] else ['t']

/-- Environment for `download_gdrive_alternative` (lines 132-162): outcomes of
the `pip install` call, the `gdown` invocation, and the resulting file. -/
structure AltEnv where
  /-- `false` when `pip install gdown` raises (`check=True` failure or timeout). -/
  pipOk : Bool
  /-- `true` when the `gdown` subprocess call raises (e.g. timeout expired). -/
  gdownExc : Bool
  returncode : Int
  fileExists : Bool
  fileSize : Nat

/-- `download_gdrive_alternative` (`streamer.py` line 132): returns `True` only
when `gdown` exits 0, the output file exists, and its size is strictly above
`10000`; every exception is caught and yields `False`. -/
def download_gdrive_alternative (env : AltEnv) : Bool :=
  if !env.pipOk then false
  else if env.gdownExc then false
  else if env.returncode == 0 && env.fileExists then
    decide (env.fileSize > min_file_size)
  else false

/-- Environment for `download_from_gdrive` (lines 52-130): outcome of the first
request (`none` models a raised transport exception, which also covers a
failure while reading `response.text`), of the second request as a function of
the `confirm` value sent, of streaming the body to disk (`none` models an
exception while downloading/writing, `some n` a complete write of `n` bytes),
and the environment of the fallback strategy. -/
structure GdriveEnv where
  first : Option HttpResp
  second : List Char → Option HttpResp
  savedSize : Option Nat
  alt : AltEnv

/-- `download_from_gdrive` (`streamer.py` line 52).  The whole body is wrapped
in `try/except Exception`, whose handler calls `download_gdrive_alternative`;
the HTML content-type check and the undersized-file check also divert to the
fallback strategy. -/
def download_from_gdrive (env : GdriveEnv) : Bool :=
  match env.first with
  | none => download_gdrive_alternative env.alt
  | some r1 =>
    match env.second (confirm_param r1.cookies r1.body) with
    | none => download_gdrive_alternative env.alt
    | some r2 =>
      if containsSub "text/html".data r2.contentType then
        download_gdrive_alternative env.alt
      else
        match env.savedSize with
        | none => download_gdrive_alternative env.alt
        | some file_size =>
          if file_size < min_file_size then download_gdrive_alternative env.alt
          else true

/-- Environment for the direct-URL branch of `download_video` (lines 184-210):
`exc = true` models any exception raised by the request, the
`raise_for_status` check, or the chunked write. -/
structure DirectEnv where
  exc : Bool

/-- The effectful context of `download_video`. -/
structure VideoEnv where
  gdrive : GdriveEnv
  direct : DirectEnv

/-- `download_video` (`streamer.py` line 164): Google-Drive URLs go through
`extract_gdrive_id` (no identifier is a hard failure) and then
`download_from_gdrive`; every other URL is fetched directly, with exceptions
caught and reported as failure. -/
def download_video (url : List Char) (env : VideoEnv) : Bool :=
  if is_google_drive_url url then
    match extract_gdrive_id url with
    | none => false
    | some _ => download_from_gdrive env.gdrive
  else
    !env.direct.exc

/-! ## Encoding-plan derivation (`start_streaming`, lines 246-299) -/

/-- Decimal digit run to a number, `none` when empty or non-digits occur. -/
def digitsToNat (l : List Char) : Option Nat :=
  if l.isEmpty then none
  else if l.all Char.isDigit then
    some (l.foldl (fun n c => n * 10 + (c.toNat - 48)) 0)
  else none

/-- Python `int(<string>)` restricted to an optional sign followed by digits
(`ValueError`, i.e. `none`, otherwise). -/
def pyInt : List Char → Option Int
  | '-' :: rest => (digitsToNat rest).map (fun n => -(n : Int))
  | '+' :: rest => (digitsToNat rest).map (fun n => (n : Int))
  | l => (digitsToNat l).map (fun n => (n : Int))

/-- Python `str(<int>)` for the bufsize computation. -/
def pyStrInt (n : Int) : List Char :=
  if n < 0 then '-' :: Nat.toDigits 10 n.natAbs else Nat.toDigits 10 n.natAbs

/-- The width computation before even-rounding (lines 251-260): Python
`int(height * num / den)` truncates toward zero, which `Int.tdiv` matches
(the float division is exact at every height the spec names, and the
truncated rational value everywhere the product stays within float range). -/
def raw_width (height : Int) (aspect : List Char) : Int :=
  if aspect == "16:9".data then Int.tdiv (height * 16) 9
  else if aspect == "9:16".data then Int.tdiv (height * 9) 16
  else if aspect == "4:3".data then Int.tdiv (height * 4) 3
  else if aspect == "1:1".data then height
  else Int.tdiv (height * 16) 9

/-- Line 262: `width = width if width % 2 == 0 else width + 1`.  Python `%`
with positive modulus is Euclidean, i.e. `Int.emod`. -/
def even_width (height : Int) (aspect : List Char) : Int :=
  let w := raw_width height aspect
  if w % 2 == 0 then w else w + 1

/-- The `bitrate_map` dictionary with its `.get(height, '2500k')` default
(lines 267-275). -/
def bitrate_map (h : Int) : List Char :=
  if h == 360 then "800k".data
  else if h == 480 then "1200k".data
  else if h == 720 then "2500k".data
  else if h == 1080 then "4500k".data
  else if h == 1440 then "9000k".data
  else if h == 2160 then "20000k".data
  else "2500k".data

/-- Line 291: `str(int(video_bitrate.replace('k', '')) * 2) + 'k'`; the
`int(...)` raises (`none`) if the bitrate string without its `k`s is not a
number, which never happens for values of `bitrate_map`. -/
def bufsize_of (b : List Char) : Option (List Char) :=
  (pyInt (b.filter (fun c => c ≠ 'k'))).map (fun n => pyStrInt (n * 2) ++ ['k'])

/-- The derived encoder parameters of one run. -/
structure EncodingPlan where
  width : Int
  height : Int
  video_bitrate : List Char
  bufsize : List Char
  audio_bitrate : List Char
  sample_rate : Nat
deriving DecidableEq

/-- The parameter-derivation part of `start_streaming` (lines 246-299).
`none` models an uncaught exception: `int(self.quality.replace('p', ''))`
raises `ValueError` when the quality string contains `'p'` but its residue is
not an integer.  A quality string without `'p'` takes the `1280×720` default
branch.  Audio parameters are the fixed `128k` / `44100` of the `ffmpeg`
command. -/
def derive_plan (quality aspect : List Char) : Option EncodingPlan :=
  if quality.contains 'p' then
    match pyInt (quality.filter (fun c => c ≠ 'p')) with
    | none => none
    | some h =>
      let vb := bitrate_map h
      (bufsize_of vb).map (fun bs =>
        ⟨even_width h aspect, h, vb, bs, "128k".data, 44100⟩)
  else
    let vb := bitrate_map 720
    (bufsize_of vb).map (fun bs => ⟨1280, 720, vb, bs, "128k".data, 44100⟩)

/-! ## Stream supervisor (`start_streaming`, lines 304-330) -/

/-- What one iteration of the supervision loop observes while blocking on
`subprocess.run(ffmpeg_cmd, ...)`. -/
inductive SessionOutcome where
  /-- The encoder process exited with the given status code. -/
  | procExit (code : Int)
  /-- Launching or monitoring raised some exception other than
  `KeyboardInterrupt` (caught by the generic handler, line 324). -/
  | launchErr
  /-- `KeyboardInterrupt` was raised during the blocking wait (line 320). -/
  | cancelled
deriving DecidableEq

/-- An observable action of the supervision loop. -/
inductive SupAction where
  /-- One `subprocess.run` launch of the encoder. -/
  | launch
  /-- One `time.sleep` of the given number of seconds. -/
  | sleep (secs : Nat)
deriving DecidableEq

/-- The `while attempt < 999` loop of `start_streaming`, lines 304-330, run
against a finite trace of session outcomes.  Returns the list of actions
performed, the final value of `attempt`, and the boolean result of
`start_streaming`; `none` when the trace is exhausted with the loop still
running (the process would still be live). -/
def superviseFrom (attempt : Nat) : List SessionOutcome → Option (List SupAction × Nat × Bool)
  | [] =>
    if attempt < max_attempts then none else some ([], attempt, true)
  | o :: rest =>
    if attempt < max_attempts then
      match o with
      | SessionOutcome.cancelled => some ([SupAction.launch], attempt, true)
      | _ =>
        match superviseFrom (attempt + 1) rest with
        | none => none
        | some (tr, a, b) =>
          some (SupAction.launch :: SupAction.sleep retry_delay :: tr, a, b)
    else some ([], attempt, true)

/-- `start_streaming`, starting from `attempt = 0` (line 305). -/
def start_streaming (outcomes : List SessionOutcome) :
    Option (List SupAction × Nat × Bool) :=
  superviseFrom 0 outcomes

/-! ## Run controller (`run`, line 332, and `main`, line 374) -/

/-- Python truthiness of `os.getenv(...)`: `None` and `""` are falsy. -/
def truthyStr : Option (List Char) → Bool
  | none => false
  | some s => !s.isEmpty

/-- The effectful context of one `run`: the two required configuration values,
the download context, and the state of `video.mp4` afterwards. -/
structure RunEnv where
  stream_key : Option (List Char)
  video_url : Option (List Char)
  video : VideoEnv
  fileExists : Bool
  fileSize : Nat

/-- `run` (`streamer.py` line 332): validate configuration, download, check
the file exists and is at least `10000` bytes, then stream (the supervision
loop only ever returns `True`, and its result is discarded) and return
`True`. -/
def run (env : RunEnv) : Bool :=
  if !truthyStr env.stream_key then false
  else if !truthyStr env.video_url then false
  else if !download_video (env.video_url.getD []) env.video then false
  else if !env.fileExists then false
  else if env.fileSize < min_file_size then false
  else true

/-- How the `try/except` of `main` (line 374) finished. -/
inductive MainOutcome where
  /-- `streamer.run()` returned the given boolean. -/
  | normal (runResult : Bool)
  /-- `KeyboardInterrupt` escaped to `main` (line 379). -/
  | interrupted
  /-- Any other exception escaped to `main` (line 382). -/
  | fatal
deriving DecidableEq

/-- The argument of `sys.exit` in `main` (lines 374-386). -/
def main_exit_code : MainOutcome → Nat
  | MainOutcome.normal b => if b then 0 else 1
  | MainOutcome.interrupted => 0
  | MainOutcome.fatal => 1

/-! ## Specification-level predicates -/

/-- The property of `s` containing an occurrence of the regex `lit(<good>+)`:
some split of `s` embeds the literal followed by a non-empty run of `good`
characters. -/
def tokSplit (lit : List Char) (good : Char → Bool) (s : List Char) : Prop :=
  ∃ a t b, s = a ++ lit ++ t ++ b ∧ t ≠ [] ∧ t.all good = true

/-! ## Helper lemmas -/

theorem isPrefixOf_iff_append (l₁ l₂ : List Char) :
    l₁.isPrefixOf l₂ = true ↔ ∃ t, l₂ = l₁ ++ t := by
  induction l₁ generalizing l₂ with
  | nil => simp [List.isPrefixOf]
  | cons a as ih =>
    cases l₂ with
    | nil => simp [List.isPrefixOf]
    | cons b bs =>
      simp only [List.isPrefixOf, Bool.and_eq_true, beq_iff_eq, ih, List.cons_append,
        List.cons.injEq]
      constructor
      · rintro ⟨rfl, t, rfl⟩; exact ⟨t, rfl, rfl⟩
      · rintro ⟨t, rfl, rfl⟩; exact ⟨rfl, t, rfl⟩

theorem containsSub_iff (n s : List Char) :
    containsSub n s = true ↔ ∃ a b, s = a ++ n ++ b := by
  induction s with
  | nil =>
    simp only [containsSub, List.isEmpty_iff]
    constructor
    · rintro rfl; exact ⟨[], [], rfl⟩
    · rintro ⟨a, b, h⟩
      rcases List.append_eq_nil.mp h.symm with ⟨h1, h2⟩
      exact (List.append_eq_nil.mp h1).2
  | cons c r ih =>
    simp only [containsSub, Bool.or_eq_true, ih, isPrefixOf_iff_append]
    constructor
    · rintro (⟨t, ht⟩ | ⟨a, b, rfl⟩)
      · exact ⟨[], t, by simp [ht]⟩
      · exact ⟨c :: a, b, rfl⟩
    · rintro ⟨a, b, h⟩
      cases a with
      | nil => exact Or.inl ⟨b, by simpa using h⟩
      | cons a0 as =>
        right
        rw [List.cons_append, List.cons_append] at h
        injection h with h0 h1
        exact ⟨as, b, h1⟩

theorem takeWhile_all_good (good : Char → Bool) (l : List Char) :
    (l.takeWhile good).all good = true := by
  induction l with
  | nil => rfl
  | cons c r ih =>
    rw [List.takeWhile_cons]
    by_cases h : good c = true <;> simp [h, ih]

theorem dropWhile_head_not (good : Char → Bool) (l : List Char) (c : Char) (bs : List Char)
    (h : l.dropWhile good = c :: bs) : good c = false := by
  induction l with
  | nil => simp at h
  | cons a r ih =>
    rw [List.dropWhile_cons] at h
    by_cases ha : good a = true
    · rw [if_pos ha] at h; exact ih h
    · rw [if_neg ha] at h
      injection h with h0 h1
      subst h0
      simpa using ha

theorem searchTok_some (lit : List Char) (good : Char → Bool) (s r : List Char)
    (h : searchTok lit good s = some r) :
    r ≠ [] ∧ r.all good = true ∧
      ∃ a b, s = a ++ lit ++ r ++ b ∧ ∀ d bs, b = d :: bs → good d = false := by
  induction s with
  | nil => simp [searchTok] at h
  | cons c rest ih =>
    simp only [searchTok] at h
    split at h
    case isTrue hp =>
      split at h
      case isTrue hrun =>
        obtain ⟨hr, hall, a, b, hs, hb⟩ := ih h
        exact ⟨hr, hall, c :: a, b, by simp [hs, List.append_assoc], hb⟩
      case isFalse hrun =>
        injection h with h
        subst h
        obtain ⟨t, ht⟩ := (isPrefixOf_iff_append _ _).mp hp
        have hdrop : (c :: rest).drop lit.length = t := by rw [ht, List.drop_left]
        rw [hdrop] at hrun ⊢
        refine ⟨fun he => hrun (by simp [he]), takeWhile_all_good good t,
          [], t.dropWhile good, ?_, fun d bs hd => dropWhile_head_not good t d bs hd⟩
        rw [List.nil_append, ht, List.append_assoc, List.takeWhile_append_dropWhile]
    case isFalse hp =>
      obtain ⟨hr, hall, a, b, hs, hb⟩ := ih h
      exact ⟨hr, hall, c :: a, b, by simp [hs, List.append_assoc], hb⟩

theorem searchTok_eq_none_iff (lit : List Char) (good : Char → Bool) (s : List Char) :
    searchTok lit good s = none ↔ ¬ tokSplit lit good s := by
  induction s with
  | nil =>
    simp only [searchTok, true_iff, tokSplit]
    rintro ⟨a, t, b, h, ht, -⟩
    have hlen := congrArg List.length h
    simp only [List.length_nil, List.length_append] at hlen
    exact ht (List.length_eq_zero.mp (by omega))
  | cons c rest ih =>
    simp only [searchTok]
    split
    case isTrue hp =>
      split
      case isTrue hrun =>
        rw [ih]
        constructor
        · intro hnone hsplit
          apply hnone
          obtain ⟨a, t, b, hs, ht, hall⟩ := hsplit
          cases a with
          | nil =>
            exfalso
            rw [List.nil_append] at hs
            have hdrop : (c :: rest).drop lit.length = t ++ b := by
              rw [hs, List.append_assoc, List.drop_left]
            rw [hdrop] at hrun
            cases t with
            | nil => exact ht rfl
            | cons d t2 =>
              have hd : good d = true := by
                simp only [List.all_cons, Bool.and_eq_true] at hall
                exact hall.1
              rw [List.cons_append, List.takeWhile_cons, if_pos hd] at hrun
              simp at hrun
          | cons a0 as =>
            rw [List.cons_append] at hs
            injection hs with h0 h1
            exact ⟨as, t, b, h1, ht, hall⟩
        · intro hnone hsplit
          apply hnone
          obtain ⟨a, t, b, hs, ht, hall⟩ := hsplit
          exact ⟨c :: a, t, b, by simp [hs, List.append_assoc], ht, hall⟩
      case isFalse hrun =>
        constructor
        · intro h; exact absurd h (Option.some_ne_none _)
        · intro hn
          exfalso
          apply hn
          obtain ⟨t, ht⟩ := (isPrefixOf_iff_append _ _).mp hp
          have hdrop : (c :: rest).drop lit.length = t := by rw [ht, List.drop_left]
          rw [hdrop] at hrun
          refine ⟨[], t.takeWhile good, t.dropWhile good, ?_,
            fun he => hrun (by simp [he]), takeWhile_all_good good t⟩
          rw [List.nil_append, ht, List.append_assoc, List.takeWhile_append_dropWhile]
    case isFalse hp =>
      rw [ih]
      constructor
      · intro hnone hsplit
        apply hnone
        obtain ⟨a, t, b, hs, ht, hall⟩ := hsplit
        cases a with
        | nil =>
          exfalso
          apply hp
          rw [List.nil_append] at hs
          rw [isPrefixOf_iff_append]
          exact ⟨t ++ b, by rw [hs, List.append_assoc]⟩
        | cons a0 as =>
          rw [List.cons_append] at hs
          injection hs with h0 h1
          exact ⟨as, t, b, h1, ht, hall⟩
      · intro hnone hsplit
        apply hnone
        obtain ⟨a, t, b, hs, ht, hall⟩ := hsplit
        exact ⟨c :: a, t, b, by simp [hs, List.append_assoc], ht, hall⟩

theorem superviseFrom_exit_cancel (codes : List Int) :
    ∀ a : Nat, a + codes.length < max_attempts →
    superviseFrom a (codes.map SessionOutcome.procExit ++ [SessionOutcome.cancelled]) =
      some ((List.replicate codes.length [SupAction.launch, SupAction.sleep retry_delay]).flatten
              ++ [SupAction.launch], a + codes.length, true) := by
  induction codes with
  | nil =>
    intro a ha
    simp only [List.length_nil, Nat.add_zero] at ha ⊢
    simp [superviseFrom, ha]
  | cons c cs ih =>
    intro a ha
    simp only [List.length_cons] at ha
    have halt : a < max_attempts := by omega
    simp only [List.map_cons, List.cons_append, superviseFrom, if_pos halt]
    rw [show (List.map SessionOutcome.procExit cs).append [SessionOutcome.cancelled] =
      List.map SessionOutcome.procExit cs ++ [SessionOutcome.cancelled] from rfl]
    rw [ih (a + 1) (by omega)]
    have hn : a + 1 + cs.length = a + (cs.length + 1) := by omega
    simp only [List.length_cons, List.replicate_succ, List.flatten_cons, List.cons_append,
      List.append_assoc, List.nil_append, hn]

theorem superviseFrom_ceiling (codes : List Int) :
    ∀ a : Nat, a + codes.length = max_attempts →
    superviseFrom a (codes.map SessionOutcome.procExit) =
      some ((List.replicate codes.length [SupAction.launch, SupAction.sleep retry_delay]).flatten,
            max_attempts, true) := by
  induction codes with
  | nil =>
    intro a ha
    simp only [List.length_nil, Nat.add_zero] at ha
    subst ha
    simp [superviseFrom]
  | cons c cs ih =>
    intro a ha
    simp only [List.length_cons] at ha
    have halt : a < max_attempts := by omega
    simp only [List.map_cons, superviseFrom, if_pos halt]
    rw [ih (a + 1) (by omega)]
    simp [List.replicate_succ, List.flatten_cons, List.nil_append]

/-- Claim C2: for every list of `N < 999` consecutive process exits (with any
exit codes) followed by a cancellation signal, the supervisor performs exactly
`N` restarts -- its trace is `N` repetitions of (launch, 5-second sleep)
followed by one final launch, i.e. `N + 1` launches -- increments the attempt
counter to `N`, and stops immediately with a success outcome; and consuming
999 exits reaches the ceiling, which also terminates the loop with success. -/
theorem start_streaming_restart_loop :
    (∀ codes : List Int, codes.length < max_attempts →
      start_streaming (codes.map SessionOutcome.procExit ++ [SessionOutcome.cancelled]) =
        some ((List.replicate codes.length [SupAction.launch, SupAction.sleep retry_delay]).flatten
                ++ [SupAction.launch], codes.length, true)) ∧
    (∀ codes : List Int, codes.length = max_attempts →
      start_streaming (codes.map SessionOutcome.procExit) =
        some ((List.replicate codes.length [SupAction.launch, SupAction.sleep retry_delay]).flatten,
              max_attempts, true)) ∧
    retry_delay = 5 ∧ max_attempts = 999 := by
  refine ⟨fun codes h => ?_, fun codes h => ?_, rfl, rfl⟩
  · have := superviseFrom_exit_cancel codes 0 (by omega)
    simpa [start_streaming] using this
  · have := superviseFrom_ceiling codes 0 (by omega)
    simpa [start_streaming] using this

theorem start_streaming_restart_loop_witness :
    start_streaming ([(0 : Int)].map SessionOutcome.procExit ++ [SessionOutcome.cancelled]) =
      some ((List.replicate [(0 : Int)].length
               [SupAction.launch, SupAction.sleep retry_delay]).flatten
              ++ [SupAction.launch], [(0 : Int)].length, true) :=
  start_streaming_restart_loop.1 [0] (by decide)

/-- Claim C7: `extract_gdrive_id` returns `none` exactly when no one of the
four identifier patterns occurs in the URL; and when it returns an identifier,
that identifier is the capture of the first pattern (in the fixed source
order) that occurs in the URL -- a non-empty run of identifier characters
embedded right after the pattern literal and maximal there. -/
theorem extract_gdrive_id_first_pattern (url : List Char) :
    (extract_gdrive_id url = none ↔ ∀ p ∈ gdrivePatterns, ¬ tokSplit p isIdChar url) ∧
    (∀ r, extract_gdrive_id url = some r →
      ∃ pre p post, gdrivePatterns = pre ++ p :: post ∧
        (∀ q ∈ pre, ¬ tokSplit q isIdChar url) ∧
        searchTok p isIdChar url = some r ∧
        r ≠ [] ∧ r.all isIdChar = true ∧
        ∃ a b, url = a ++ p ++ r ++ b ∧ ∀ d bs, b = d :: bs → isIdChar d = false) := by
  have hmem : ∀ p, p ∈ gdrivePatterns ↔
      p = "/file/d/".data ∨ p = "id=".data ∨ p = "/open?id=".data ∨ p = "/d/".data := by
    intro p
    simp [gdrivePatterns]
  cases h1 : searchTok "/file/d/".data isIdChar url with
  | some r1 =>
    have hx : extract_gdrive_id url = some r1 := by
      unfold extract_gdrive_id
      rw [h1]
    obtain ⟨hr, hall, a, b, hs, hb⟩ := searchTok_some _ _ _ _ h1
    constructor
    · rw [hx]
      constructor
      · intro hcon
        exact absurd hcon (Option.some_ne_none _)
      · intro hall2
        exact absurd ⟨a, r1, b, hs, hr, hall⟩
          (hall2 _ ((hmem _).mpr (Or.inl rfl)))
    · intro r hrr
      rw [hx] at hrr
      injection hrr with hrr
      subst hrr
      exact ⟨[], "/file/d/".data, ["id=".data, "/open?id=".data, "/d/".data], rfl,
        fun q hq => absurd hq (List.not_mem_nil q), h1, hr, hall, a, b, hs, hb⟩
  | none =>
    have hn1 := (searchTok_eq_none_iff _ _ _).mp h1
    cases h2 : searchTok "id=".data isIdChar url with
    | some r2 =>
      have hx : extract_gdrive_id url = some r2 := by
        unfold extract_gdrive_id
        rw [h1, h2]
      obtain ⟨hr, hall, a, b, hs, hb⟩ := searchTok_some _ _ _ _ h2
      constructor
      · rw [hx]
        constructor
        · intro hcon
          exact absurd hcon (Option.some_ne_none _)
        · intro hall2
          exact absurd ⟨a, r2, b, hs, hr, hall⟩
            (hall2 _ ((hmem _).mpr (Or.inr (Or.inl rfl))))
      · intro r hrr
        rw [hx] at hrr
        injection hrr with hrr
        subst hrr
        refine ⟨["/file/d/".data], "id=".data, ["/open?id=".data, "/d/".data], rfl,
          ?_, h2, hr, hall, a, b, hs, hb⟩
        intro q hq
        rw [List.mem_singleton] at hq
        subst hq
        exact hn1
    | none =>
      have hn2 := (searchTok_eq_none_iff _ _ _).mp h2
      cases h3 : searchTok "/open?id=".data isIdChar url with
      | some r3 =>
        have hx : extract_gdrive_id url = some r3 := by
          unfold extract_gdrive_id
          rw [h1, h2, h3]
        obtain ⟨hr, hall, a, b, hs, hb⟩ := searchTok_some _ _ _ _ h3
        constructor
        · rw [hx]
          constructor
          · intro hcon
            exact absurd hcon (Option.some_ne_none _)
          · intro hall2
            exact absurd ⟨a, r3, b, hs, hr, hall⟩
              (hall2 _ ((hmem _).mpr (Or.inr (Or.inr (Or.inl rfl)))))
        · intro r hrr
          rw [hx] at hrr
          injection hrr with hrr
          subst hrr
          refine ⟨["/file/d/".data, "id=".data], "/open?id=".data, ["/d/".data], rfl,
            ?_, h3, hr, hall, a, b, hs, hb⟩
          intro q hq
          rcases List.mem_pair.mp hq with rfl | rfl
          · exact hn1
          · exact hn2
      | none =>
        have hn3 := (searchTok_eq_none_iff _ _ _).mp h3
        cases h4 : searchTok "/d/".data isIdChar url with
        | some r4 =>
          have hx : extract_gdrive_id url = some r4 := by
            unfold extract_gdrive_id
            rw [h1, h2, h3, h4]
          obtain ⟨hr, hall, a, b, hs, hb⟩ := searchTok_some _ _ _ _ h4
          constructor
          · rw [hx]
            constructor
            · intro hcon
              exact absurd hcon (Option.some_ne_none _)
            · intro hall2
              exact absurd ⟨a, r4, b, hs, hr, hall⟩
                (hall2 _ ((hmem _).mpr (Or.inr (Or.inr (Or.inr rfl)))))
          · intro r hrr
            rw [hx] at hrr
            injection hrr with hrr
            subst hrr
            refine ⟨["/file/d/".data, "id=".data, "/open?id=".data], "/d/".data, [], rfl,
              ?_, h4, hr, hall, a, b, hs, hb⟩
            intro q hq
            simp only [List.mem_cons, List.mem_singleton, List.not_mem_nil, or_false] at hq
            rcases hq with rfl | rfl | rfl
            · exact hn1
            · exact hn2
            · exact hn3
        | none =>
          have hn4 := (searchTok_eq_none_iff _ _ _).mp h4
          have hx : extract_gdrive_id url = none := by
            unfold extract_gdrive_id
            rw [h1, h2, h3, h4]
          constructor
          · rw [hx]
            simp only [true_iff]
            intro p hp
            rcases (hmem p).mp hp with rfl | rfl | rfl | rfl
            · exact hn1
            · exact hn2
            · exact hn3
            · exact hn4
          · intro r hrr
            rw [hx] at hrr
            exact absurd hrr (by simp)

theorem extract_gdrive_id_first_pattern_witness :
    ∃ pre p post, gdrivePatterns = pre ++ p :: post ∧
      (∀ q ∈ pre, ¬ tokSplit q isIdChar "https://drive.google.com/file/d/A1/view".data) ∧
      searchTok p isIdChar "https://drive.google.com/file/d/A1/view".data = some "A1".data ∧
      "A1".data ≠ [] ∧ "A1".data.all isIdChar = true ∧
      ∃ a b, "https://drive.google.com/file/d/A1/view".data = a ++ p ++ "A1".data ++ b ∧
        ∀ d bs, b = d :: bs → isIdChar d = false :=
  (extract_gdrive_id_first_pattern _).2 "A1".data (by decide)

/-- Claim C1: a downloaded file whose size is strictly below 10,000 bytes is
never accepted as a valid stream source: in the large-file primary strategy it
diverts to the fallback strategy, in the fallback strategy it counts as
failure, and at the run-controller integrity check it makes the run fail. -/
theorem undersized_file_never_accepted :
    (∀ (env : GdriveEnv) (r1 r2 : HttpResp) (sz : Nat), env.first = some r1 →
      env.second (confirm_param r1.cookies r1.body) = some r2 →
      containsSub "text/html".data r2.contentType = false →
      env.savedSize = some sz → sz < min_file_size →
      download_from_gdrive env = download_gdrive_alternative env.alt) ∧
    (∀ alt : AltEnv, alt.fileSize < min_file_size →
      download_gdrive_alternative alt = false) ∧
    (∀ env : RunEnv, env.fileSize < min_file_size → run env = false) := by
  refine ⟨?_, ?_, ?_⟩
  · intro env r1 r2 sz h1 h2 hct hsz hlt
    simp only [download_from_gdrive, h1, h2, hct, hsz, Bool.false_eq_true, if_false]
    rw [if_pos hlt]
  · intro alt h
    unfold download_gdrive_alternative
    repeat' split
    all_goals first
      | rfl
      | (simp only [decide_eq_false_iff_not, gt_iff_lt, not_lt, min_file_size] at *; omega)
  · intro env h
    simp [run, h]

theorem undersized_file_never_accepted_witness :
    download_gdrive_alternative ⟨true, false, 0, true, 500⟩ = false :=
  undersized_file_never_accepted.2.1 ⟨true, false, 0, true, 500⟩ (by decide)

/-- Claim C5 counterexample: a transport exception during the direct-URL
download strategy does not trigger the fallback strategy: with a non-Drive URL
and a raising request, `download_video` returns `False` even though the
fallback strategy, had it been invoked with the same environment, would have
succeeded -- so the exception fails the attempt without any fallback. -/
theorem transport_exception_fallback_counterexample :
    is_google_drive_url "http://host.example/v.mp4".data = false ∧
    download_video "http://host.example/v.mp4".data
        ⟨⟨none, fun _ => none, none, ⟨true, false, 0, true, 20000⟩⟩, ⟨true⟩⟩ = false ∧
    download_gdrive_alternative ⟨true, false, 0, true, 20000⟩ = true := by decide

/-- Claim C5 amended: every transport exception inside the large-file
(Google-Drive) strategy -- the first request, the confirmation handshake, the
second request, or streaming the body to disk -- is caught and diverts to the
fallback strategy `download_gdrive_alternative`; a transport exception during
the direct-URL strategy is caught and reported as failure of the attempt,
without invoking the fallback strategy.  In neither case does the exception
propagate out of the acquisition engine. -/
theorem transport_exception_triggers_fallback :
    (∀ env : GdriveEnv, env.first = none →
      download_from_gdrive env = download_gdrive_alternative env.alt) ∧
    (∀ (env : GdriveEnv) (r1 : HttpResp), env.first = some r1 →
      env.second (confirm_param r1.cookies r1.body) = none →
      download_from_gdrive env = download_gdrive_alternative env.alt) ∧
    (∀ (env : GdriveEnv) (r1 r2 : HttpResp), env.first = some r1 →
      env.second (confirm_param r1.cookies r1.body) = some r2 →
      env.savedSize = none →
      download_from_gdrive env = download_gdrive_alternative env.alt) ∧
    (∀ (url : List Char) (env : VideoEnv), is_google_drive_url url = false →
      env.direct.exc = true → download_video url env = false) := by
  refine ⟨?_, ?_, ?_, ?_⟩
  · intro env h1
    simp only [download_from_gdrive, h1]
  · intro env r1 h1 h2
    simp only [download_from_gdrive, h1, h2]
  · intro env r1 r2 h1 h2 h3
    simp only [download_from_gdrive, h1, h2, h3]
    split <;> rfl
  · intro url env hurl hexc
    simp [download_video, hurl, hexc]

theorem transport_exception_triggers_fallback_witness :
    download_from_gdrive ⟨none, fun _ => none, none, ⟨true, false, 0, true, 20000⟩⟩ =
      download_gdrive_alternative ⟨true, false, 0, true, 20000⟩ :=
  transport_exception_triggers_fallback.1 ⟨none, fun _ => none, none,
    ⟨true, false, 0, true, 20000⟩⟩ rfl

/-- Claim C3: plan derivation gives, for quality `1080p` and aspect `16:9`,
height 1080, width 1920, bitrate `4500k` and bufsize `9000k` (twice the
bitrate); for quality `360p` and aspect `9:16`, height 360 and width 202; and
for every quality of the shape `<n>p` (one whose residue parses as an integer)
with any aspect string, the derived width is even, equal to the raw
aspect-ratio width when that is even and to the raw width plus one when odd. -/
theorem derive_plan_values :
    derive_plan "1080p".data "16:9".data =
      some ⟨1920, 1080, "4500k".data, "9000k".data, "128k".data, 44100⟩ ∧
    derive_plan "360p".data "9:16".data =
      some ⟨202, 360, "800k".data, "1600k".data, "128k".data, 44100⟩ ∧
    (∀ (quality aspect : List Char) (h : Int) (plan : EncodingPlan),
      quality.contains 'p' = true →
      pyInt (quality.filter (fun c => c ≠ 'p')) = some h →
      derive_plan quality aspect = some plan →
      plan.height = h ∧ plan.video_bitrate = bitrate_map h ∧ plan.width % 2 = 0 ∧
      (plan.width = raw_width h aspect ∨
        (raw_width h aspect % 2 ≠ 0 ∧ plan.width = raw_width h aspect + 1))) := by
  refine ⟨by decide, by decide, ?_⟩
  intro quality aspect h plan hc hp hd
  simp only [derive_plan, hc, if_true, hp] at hd
  rcases Option.map_eq_some'.mp hd with ⟨bs, hbs, hplan⟩
  subst hplan
  refine ⟨rfl, rfl, ?_, ?_⟩
  · show even_width h aspect % 2 = 0
    unfold even_width
    by_cases hw : raw_width h aspect % 2 = 0
    · simp [hw]
    · have hfalse : (raw_width h aspect % 2 == 0) = false := by
        simpa using hw
      simp only [hfalse, Bool.false_eq_true, if_false]
      omega
  · show even_width h aspect = _ ∨ _ ∧ even_width h aspect = _
    unfold even_width
    by_cases hw : raw_width h aspect % 2 = 0
    · left
      simp [hw]
    · right
      have hfalse : (raw_width h aspect % 2 == 0) = false := by
        simpa using hw
      simp [hfalse, hw]

theorem derive_plan_values_witness :
    (⟨960, 720, "2500k".data, "5000k".data, "128k".data, 44100⟩ : EncodingPlan).height = 720 ∧
    (⟨960, 720, "2500k".data, "5000k".data, "128k".data, 44100⟩ : EncodingPlan).video_bitrate
        = bitrate_map 720 ∧
    (⟨960, 720, "2500k".data, "5000k".data, "128k".data, 44100⟩ : EncodingPlan).width % 2 = 0 ∧
    ((⟨960, 720, "2500k".data, "5000k".data, "128k".data, 44100⟩ : EncodingPlan).width
        = raw_width 720 "4:3".data ∨
      (raw_width 720 "4:3".data % 2 ≠ 0 ∧
        (⟨960, 720, "2500k".data, "5000k".data, "128k".data, 44100⟩ : EncodingPlan).width
          = raw_width 720 "4:3".data + 1)) :=
  derive_plan_values.2.2 "720p".data "4:3".data 720
    ⟨960, 720, "2500k".data, "5000k".data, "128k".data, 44100⟩
    (by decide) (by decide) (by decide)

/-- Claim C4 counterexample: the quality string `"p"` is not of the
`<number>p` shape, yet derivation does not fall back to 1280x720 -- it raises
(`int("")` fails), modelled as `none`. -/
theorem derive_plan_fallback_counterexample :
    "p".data.contains 'p' = true ∧
    pyInt ("p".data.filter (fun c => c ≠ 'p')) = none ∧
    derive_plan "p".data "16:9".data = none := by decide

/-- Claim C4 amended: for every quality string that does not contain the
character `p`, plan derivation falls back to width 1280, height 720 and video
bitrate `2500k` rather than failing.  (A quality string that contains `p` but
whose residue after removing every `p` is not an integer raises instead of
falling back, per the counterexample.) -/
theorem derive_plan_default_no_p (quality aspect : List Char)
    (h : quality.contains 'p' = false) :
    derive_plan quality aspect =
      some ⟨1280, 720, "2500k".data, "5000k".data, "128k".data, 44100⟩ := by
  simp only [derive_plan, h, Bool.false_eq_true, if_false]
  decide

theorem derive_plan_default_no_p_witness :
    derive_plan "best".data "16:9".data =
      some ⟨1280, 720, "2500k".data, "5000k".data, "128k".data, 44100⟩ :=
  derive_plan_default_no_p "best".data "16:9".data (by decide)

/-- Claim C6: the process exit status is 0 on every run that reaches a
deliberate stop (a `run` that returns true, which includes cancellation and
the bounded session count inside the supervisor, or a `KeyboardInterrupt`
reaching `main`), and 1 when the stream key or source URL is missing, when the
download fails, when the downloaded file is absent or below 10,000 bytes, and
on any unexpected internal error. -/
theorem exit_code_policy :
    (∀ env : RunEnv, run env = true →
      main_exit_code (MainOutcome.normal (run env)) = 0) ∧
    main_exit_code MainOutcome.interrupted = 0 ∧
    main_exit_code MainOutcome.fatal = 1 ∧
    (∀ env : RunEnv, truthyStr env.stream_key = false →
      main_exit_code (MainOutcome.normal (run env)) = 1) ∧
    (∀ env : RunEnv, truthyStr env.video_url = false →
      main_exit_code (MainOutcome.normal (run env)) = 1) ∧
    (∀ env : RunEnv, download_video (env.video_url.getD []) env.video = false →
      main_exit_code (MainOutcome.normal (run env)) = 1) ∧
    (∀ env : RunEnv, env.fileExists = false →
      main_exit_code (MainOutcome.normal (run env)) = 1) ∧
    (∀ env : RunEnv, env.fileSize < min_file_size →
      main_exit_code (MainOutcome.normal (run env)) = 1) := by
  refine ⟨?_, rfl, rfl, ?_, ?_, ?_, ?_, ?_⟩
  · intro env h
    rw [h]
    rfl
  · intro env h
    have : run env = false := by simp [run, h]
    rw [this]
    rfl
  · intro env h
    have : run env = false := by simp [run, h]
    rw [this]
    rfl
  · intro env h
    have : run env = false := by simp [run, h]
    rw [this]
    rfl
  · intro env h
    have : run env = false := by simp [run, h]
    rw [this]
    rfl
  · intro env h
    have : run env = false := by simp [run, h]
    rw [this]
    rfl

theorem exit_code_policy_witness :
    main_exit_code (MainOutcome.normal (run
      ⟨some "key-123".data, some "http://host.example/v.mp4".data,
        ⟨⟨none, fun _ => none, none, ⟨false, false, 0, false, 0⟩⟩, ⟨false⟩⟩,
        true, 20000⟩)) = 0 :=
  exit_code_policy.1
    ⟨some "key-123".data, some "http://host.example/v.mp4".data,
      ⟨⟨none, fun _ => none, none, ⟨false, false, 0, false, 0⟩⟩, ⟨false⟩⟩,
      true, 20000⟩ (by decide)

/-- Claim C8 counterexample: with a `download_warning` cookie whose value is
the empty string and a body containing `confirm=abc&`, the token used for the
second request is the body token `abc`, not the cookie token -- the cookie
token is present but does not take priority, because Python truthiness treats
the empty string as no token. -/
theorem confirm_cookie_priority_counterexample :
    cookieToken [("download_warning_x".data, [])] = some [] ∧
    bodyToken "confirm=abc&".data = some "abc".data ∧
    confirm_param [("download_warning_x".data, [])] "confirm=abc&".data = "abc".data ∧
    "abc".data ≠ ([] : List Char) := by decide

/-- Claim C8 amended: a `download_warning` cookie token takes priority over a
body token whenever the cookie token is non-empty; the body is searched
exactly when no `download_warning` cookie exists or its value is the empty
string, and when neither source yields a truthy token the generic `t` is
sent. -/
theorem confirm_cookie_priority_amended :
    (∀ (cookies : List (List Char × List Char)) (body v : List Char),
      cookieToken cookies = some v → v ≠ [] →
      confirm_param cookies body = v) ∧
    (∀ (cookies : List (List Char × List Char)) (body b : List Char),
      truthyTok (cookieToken cookies) = false → bodyToken body = some b →
      confirm_param cookies body = b) ∧
    (∀ (cookies : List (List Char × List Char)) (body : List Char),
      truthyTok (cookieToken cookies) = false → bodyToken body = none →
      confirm_param cookies body = ['t']) := by
  refine ⟨?_, ?_, ?_⟩
  · intro cookies body v hv hne
    cases v with
    | nil => exact absurd rfl hne
    | cons c cs => simp [confirm_param, hv, truthyTok]
  · intro cookies body b hfalse hb
    obtain ⟨hbne, -, -⟩ := searchTok_some _ _ _ _ hb
    cases b with
    | nil => exact absurd rfl hbne
    | cons c cs =>
      simp only [confirm_param, hfalse, Bool.false_eq_true, if_false, hb]
      simp [truthyTok]
  · intro cookies body hfalse hbn
    simp only [confirm_param, hfalse, Bool.false_eq_true, if_false, hbn]

theorem confirm_cookie_priority_amended_witness :
    confirm_param [("download_warning_a".data, "tok".data)] "confirm=xyz&".data =
      "tok".data :=
  confirm_cookie_priority_amended.1 [("download_warning_a".data, "tok".data)]
    "confirm=xyz&".data "tok".data (by decide) (by decide)

/-- Claim C9: the 10,000-byte boundary is inconsistent: a file of exactly
10,000 bytes passes the primary strategy validity check (accepted without
fallback) and the run-controller integrity check, but the fallback strategy
reports failure for it, since it requires size strictly above 10,000. -/
theorem size_boundary_10000 :
    download_from_gdrive ⟨some ⟨[], [], []⟩, fun _ => some ⟨[], [], "video/mp4".data⟩,
        some 10000, ⟨true, false, 0, true, 10000⟩⟩ = true ∧
    download_gdrive_alternative ⟨true, false, 0, true, 10000⟩ = false ∧
    (∀ alt : AltEnv, alt.fileSize = 10000 → download_gdrive_alternative alt = false) ∧
    (∀ env : RunEnv, truthyStr env.stream_key = true → truthyStr env.video_url = true →
      download_video (env.video_url.getD []) env.video = true → env.fileExists = true →
      env.fileSize = 10000 → run env = true) := by
  refine ⟨by decide, by decide, ?_, ?_⟩
  · intro alt h
    unfold download_gdrive_alternative
    repeat' split
    all_goals first
      | rfl
      | (simp only [decide_eq_false_iff_not, gt_iff_lt, not_lt, min_file_size, h]; omega)
  · intro env h1 h2 h3 h4 h5
    simp [run, h1, h2, h3, h4, h5, min_file_size]

theorem size_boundary_10000_witness :
    download_gdrive_alternative ⟨true, false, 0, true, 10000⟩ = false :=
  size_boundary_10000.2.2.1 ⟨true, false, 0, true, 10000⟩ rfl

/-- Claim C10: `is_google_drive_url` tests the two domain strings as
substrings of the whole URL, not of its host: it returns true exactly when
`drive.google.com` or `docs.google.com` occurs anywhere in the URL, and any
URL classified this way is routed by `download_video` through the large-file
(Google-Drive) path. -/
theorem gdrive_url_substring_routing :
    (∀ url : List Char, is_google_drive_url url = true ↔
      ((∃ a b, url = a ++ "drive.google.com".data ++ b) ∨
       (∃ a b, url = a ++ "docs.google.com".data ++ b))) ∧
    (∀ (url : List Char) (env : VideoEnv), is_google_drive_url url = true →
      download_video url env =
        (match extract_gdrive_id url with
         | none => false
         | some _ => download_from_gdrive env.gdrive)) := by
  constructor
  · intro url
    simp only [is_google_drive_url, Bool.or_eq_true, containsSub_iff]
  · intro url env h
    simp [download_video, h]

theorem gdrive_url_substring_routing_witness :
    download_video "http://host.example/?u=drive.google.com".data
        ⟨⟨none, fun _ => none, none, ⟨false, false, 0, false, 0⟩⟩, ⟨false⟩⟩ =
      (match extract_gdrive_id "http://host.example/?u=drive.google.com".data with
       | none => false
       | some _ =>
         download_from_gdrive ⟨none, fun _ => none, none, ⟨false, false, 0, false, 0⟩⟩) :=
  gdrive_url_substring_routing.2 "http://host.example/?u=drive.google.com".data
    ⟨⟨none, fun _ => none, none, ⟨false, false, 0, false, 0⟩⟩, ⟨false⟩⟩ (by decide)

end Streamer
